import Mathlib

/-!
Verification of the `commands` command-handler core.

Shallow embedding of the repository's core (`src/commands/models.py` and
`src/commands/core.py`) and proofs of the specified properties.

Modelling conventions:
* Python argument values and exception objects are abstracted to type
  parameters `V` (values) and `E` (exceptions); handler behaviour is a
  function from the invocation arguments to an outcome (`Except E Unit`:
  either complete normally or raise).  The `Context` object passed to a
  handler is determined by the command and the arguments, so the model
  folds that dependence into the argument dependence.
* Event dispatch (`_temporary_dispatch`, a fire-and-forget print) is
  modelled as appending the event to a trace; events carry the error
  payload where one exists (the context payload is the single context of
  the invocation and is omitted).
* Python control flow `try/except/else/finally` is translated by explicit
  combinators over `Eff E α := List (Event E) × Except E α`: the trace of
  dispatched events together with normal completion or an escaping
  exception.
-/

namespace Commands

/-- The lifecycle events dispatched by `Command.invoke`
(`_temporary_dispatch` calls in `src/commands/models.py`). -/
inductive Event (E : Type) : Type
  | command
  | command_success
  | command_error (exc : E)
  | command_complete
  deriving DecidableEq, Repr

/-- Returns `true` exactly on the `command_complete` event. -/
def Event.isComplete {E : Type} : Event E → Bool
  | .command_complete => true
  | _ => false

/-- Returns `true` exactly on the `command_success` event. -/
def Event.isSuccess {E : Type} : Event E → Bool
  | .command_success => true
  | _ => false

/-- Returns `true` exactly on `command_error` events (any payload). -/
def Event.isError {E : Type} : Event E → Bool
  | .command_error _ => true
  | _ => false

/-- A computation of the Python fragment: the list of events it dispatches
together with its result — normal completion (`.ok`) or an exception
escaping it (`.error`). -/
def Eff (E α : Type) : Type := List (Event E) × Except E α

/-- Dispatch one event (`_temporary_dispatch` never raises). -/
def emit {E : Type} (ev : Event E) : Eff E Unit := ([ev], Except.ok ())

/-- Run a Python expression that dispatches nothing: its exception
behaviour is the given `Except`. -/
def liftExc {E α : Type} (x : Except E α) : Eff E α := ([], x)

/-- Sequencing `a ; b`: if `a` raises, `b` is not reached. -/
def effSeq {E α β : Type} (m : Eff E α) (k : α → Eff E β) : Eff E β :=
  match m with
  | (tr, Except.error e) => (tr, Except.error e)
  | (tr, Except.ok a) =>
      let (tr2, r) := k a
      (tr ++ tr2, r)

/-- Python `try: body / except Exception as e: handler(e) / else: elseB`.
The `else` block runs only when the body raised nothing; an exception of
the body is consumed by the handler. -/
def pyTryExceptElse {E α β : Type} (body : Eff E α) (handler : E → Eff E β)
    (elseB : α → Eff E β) : Eff E β :=
  match body with
  | (tr, Except.error e) =>
      let (tr2, r) := handler e
      (tr ++ tr2, r)
  | (tr, Except.ok a) =>
      let (tr2, r) := elseB a
      (tr ++ tr2, r)

/-- Python `try: m / finally: fin`: `fin` always runs, also after a
`return` or an exception of `m`; if `fin` itself raises, its exception
supersedes the result of `m`. -/
def pyFinally {E α : Type} (m : Eff E α) (fin : Eff E Unit) : Eff E α :=
  let (tr, r) := m
  let (tr2, r2) := fin
  (tr ++ tr2, match r2 with
    | Except.error e => Except.error e
    | Except.ok _ => r)

/-- Structure `Command` from `src/commands/models.py`.  `ident` models Python object
identity (`walk_commands` deduplicates by it; two distinct objects with
equal fields are distinct commands).  `callback` and `error_callback`
are the handler behaviours: outcome as a function of the invocation
arguments (resp. of the captured error). -/
structure Command (V E : Type) : Type where
  ident : Nat
  name : String
  aliases : List String
  callback : List V → List (String × V) → Except E Unit
  error_callback : Option (E → Except E Unit)

/-- Method `Command.error` from `src/commands/models.py`: registers (replaces)
the error handler. -/
def Command.error {V E : Type} (cmd : Command V E) (func : E → Except E Unit) :
    Command V E :=
  { cmd with error_callback := some func }

/-- Method `Command.invoke` from `src/commands/models.py`, lines 81–112, a direct
translation of its `try/except/else/finally` block:

```
try:
    _temporary_dispatch('command', ctx)
    await self.callback(ctx, *args, **kwargs)
except Exception as exc:
    if self.error_callback:
        try:
            await self.error_callback(ctx, exc)
        except Exception as new_exc:
            exc = new_exc
        else:
            return
    _temporary_dispatch('command_error', ctx, exc)
else:
    _temporary_dispatch('command_success', ctx)
finally:
    _temporary_dispatch('command_complete', ctx)
```

The `return` in the inner `else` leaves `invoke` normally (the outer
`finally` still runs). -/
def Command.invoke {V E : Type} (cmd : Command V E) (args : List V)
    (kwargs : List (String × V)) : Eff E Unit :=
  pyFinally
    (pyTryExceptElse
      (effSeq (emit Event.command) (fun _ => liftExc (cmd.callback args kwargs)))
      (fun exc =>
        match cmd.error_callback with
        | none => emit (Event.command_error exc)
        | some ecb =>
            pyTryExceptElse (liftExc (ecb exc))
              (fun new_exc => emit (Event.command_error new_exc))
              (fun _ => liftExc (Except.ok ())))
      (fun _ => emit Event.command_success))
    (emit Event.command_complete)

/-! Embedding of `src/commands/core.py`: the case-folding map and the
command sink.

A Python `dict` is insertion-ordered with unique keys; it is embedded as
an association list where writing an existing key replaces the value in
place and writing a fresh key appends.  Python's `str.casefold` is
modelled by character-wise lower-casing (an idempotent normalisation
applied to every key operation, which is all the claims rely on). -/

/-- Model of Python `str.casefold`: lower-casing applied character by
character. -/
def casefold (s : String) : String := ⟨s.data.map Char.toLower⟩

/-- Python `dict` lookup `m[k]` / `m.get(k)` on the underlying storage. -/
def dictLookup {α : Type} : List (String × α) → String → Option α
  | [], _ => none
  | (k1, v1) :: rest, k => if k1 = k then some v1 else dictLookup rest k

/-- Python `dict` write `m[k] = v`: replace in place when the key exists,
else append. -/
def dictInsert {α : Type} : List (String × α) → String → α → List (String × α)
  | [], k, v => [(k, v)]
  | (k1, v1) :: rest, k, v =>
      if k1 = k then (k, v) :: rest else (k1, v1) :: dictInsert rest k v

/-- Errors raised by the embedded Python fragments themselves (as opposed
to errors raised by handlers, which stay abstract). -/
inductive PyError : Type
  /-- Python `NameError` (an undefined name was read). -/
  | nameError (missing : String)
  /-- Python `TypeError`: e.g. unpacking `None` with `*`/`**` at a call site. -/
  | typeError
  deriving DecidableEq, Repr

/-- Method `CaseInsensitiveDict.__getitem__` from `src/commands/core.py`
(line 26–27): `return super().__getitem__(key.casefold())`. -/
def CaseInsensitiveDict.getitem {α : Type} (d : List (String × α)) (key : String) :
    Option α :=
  dictLookup d (casefold key)

/-- Method `CaseInsensitiveDict.__setitem__` from `src/commands/core.py`
(lines 29–30): `super().__setitem__(key.casefold(), v)`.  The name `v` is
not defined anywhere in scope (the parameter is named `value`), so
evaluating the call's argument raises `NameError: name 'v' is not
defined` before anything is stored; the dictionary is left unchanged. -/
def CaseInsensitiveDict.setitem {α : Type} (d : List (String × α)) (key : String)
    (value : α) : Except PyError (List (String × α)) :=
  Except.error (PyError.nameError ("v"))

/-- Method `CaseInsensitiveDict.get` from `src/commands/core.py` (lines 38–39):
`return super().get(key.casefold(), default)`. -/
def CaseInsensitiveDict.get {α : Type} (d : List (String × α)) (key : String)
    (default : Option α) : Option α :=
  match dictLookup d (casefold key) with
  | some v => some v
  | none => default

/-- Plain `dict.get(key, default)`, used by a case-sensitive sink. -/
def plainDictGet {α : Type} (d : List (String × α)) (key : String)
    (default : Option α) : Option α :=
  match dictLookup d key with
  | some v => some v
  | none => default

/-- Structure `CommandSink` from `src/commands/core.py`: `case_insensitive` fixes at
construction whether `mapping` is a `CaseInsensitiveDict` or a plain
`dict`. -/
structure CommandSink (V E : Type) : Type where
  case_insensitive : Bool
  mapping : List (String × Command V E)

/-- Constructor `CommandSink.__init__`: an empty mapping of the selected kind. -/
def CommandSink.init (V E : Type) (case_insensitive : Bool) : CommandSink V E :=
  { case_insensitive := case_insensitive, mapping := [] }

/-- The key under which the sink's dictionary stores/looks up `k`:
case-folded for a `CaseInsensitiveDict`, unchanged for a plain `dict`. -/
def CommandSink.foldKey {V E : Type} (s : CommandSink V E) (k : String) : String :=
  if s.case_insensitive then casefold k else k

/-- Method `CommandSink.get_command` from `src/commands/core.py` (lines 76–93):
`return self.mapping.get(name, default)` — dispatching to
`CaseInsensitiveDict.get` or `dict.get` according to the sink's mode. -/
def CommandSink.get_command {V E : Type} (s : CommandSink V E) (name : String)
    (default : Option (Command V E)) : Option (Command V E) :=
  if s.case_insensitive then CaseInsensitiveDict.get s.mapping name default
  else plainDictGet s.mapping name default

/-- The dedup loop body of `walk_commands`: walk the mapping's values in
order, `seen` holding the identities already yielded. -/
def walkAux {V E : Type} : List (Command V E) → List Nat → List (Command V E)
  | [], _ => []
  | c :: rest, seen =>
      if c.ident ∈ seen then walkAux rest seen
      else c :: walkAux rest (c.ident :: seen)

/-- Method `CommandSink.walk_commands` from `src/commands/core.py` (lines 62–74):
yields the mapping's values in order, skipping a command whose identity
was already yielded (`seen` is a set of objects, membership is object
identity since `Command` defines no `__eq__`). -/
def CommandSink.walk_commands {V E : Type} (s : CommandSink V E) :
    List (Command V E) :=
  walkAux (s.mapping.map Prod.snd) []

/-- Property `CommandSink.commands`: `list(self.walk_commands())`. -/
def CommandSink.commands {V E : Type} (s : CommandSink V E) :
    List (Command V E) :=
  s.walk_commands

/-- Modelled from the spec: `CommandSink.register` does not appear in
`src/` (the spec's §4.2 describes it; only `CommandSink`'s mapping and
lookups are in the source).  Per the spec it "inserts `command` into
`mapping` under its `name` and under every entry of its `aliases`";
insertion goes through the sink's dictionary, so keys are case-folded
exactly when the sink is case-insensitive. -/
def CommandSink.register {V E : Type} (s : CommandSink V E) (cmd : Command V E) :
    CommandSink V E :=
  { s with
    mapping :=
      (cmd.name :: cmd.aliases).foldl
        (fun m k => dictInsert m (s.foldKey k) cmd) s.mapping }

/-! Embedding of `Context` from `src/commands/models.py`. -/

/-- Structure `Context` from `src/commands/models.py`: `command`, `args` and
`kwargs` all start out as `None` (`Context.__init__`, lines 128–131). -/
structure Context (V E : Type) : Type where
  command : Option (Command V E)
  args : Option (List V)
  kwargs : Option (List (String × V))

/-- Constructor `Context.__init__`: all three attributes `None`. -/
def Context.init (V E : Type) : Context V E :=
  { command := none, args := none, kwargs := none }

/-- Method `Context.invoke` from `src/commands/models.py` (lines 133–153):
stores `command`/`args`/`kwargs` on the context, then delegates to
`command.invoke`.  Result: the mutated context and the pipeline's
effect. -/
def Context.invoke {V E : Type} (ctx : Context V E) (command : Command V E)
    (args : List V) (kwargs : List (String × V)) : Context V E × Eff E Unit :=
  ({ ctx with command := some command, args := some args, kwargs := some kwargs },
   command.invoke args kwargs)

/-- Method `Context.reinvoke` from `src/commands/models.py` (lines 155–162):
`await self.invoke(self.command, *self.args, **self.kwargs)`.  Unpacking
`*None` or `**None` raises `TypeError` at the call site, before
`Context.invoke` runs (so before any mutation or event); with all three
attributes present it is exactly `Context.invoke` on the stored values.
(If `command` is `None` while `args`/`kwargs` are set, the call proceeds
and fails inside with an attribute error; no claim touches that state and
the model reports it as a `typeError`-kinded failure as well.) -/
def Context.reinvoke {V E : Type} (ctx : Context V E) :
    Except PyError (Context V E × Eff E Unit) :=
  match ctx.args with
  | none => Except.error PyError.typeError
  | some args =>
      match ctx.kwargs with
      | none => Except.error PyError.typeError
      | some kwargs =>
          match ctx.command with
          | none => Except.error PyError.typeError
          | some command => Except.ok (ctx.invoke command args kwargs)

/-- A concrete command whose handler completes normally. -/
def okCmd : Command Nat Nat :=
  { ident := 0, name := "ping", aliases := ["p"],
    callback := fun _ _ => Except.ok (), error_callback := none }

/-- A concrete command whose handler raises error `1`, with an error
handler that itself raises error `2`. -/
def failBothCmd : Command Nat Nat :=
  { ident := 2, name := "failboth", aliases := [],
    callback := fun _ _ => Except.error 1,
    error_callback := some (fun _ => Except.error 2) }

/-- A concrete command whose handler raises error `1`, with an error
handler that completes without raising. -/
def recoverCmd : Command Nat Nat :=
  { ident := 3, name := "recover", aliases := [],
    callback := fun _ _ => Except.error 1,
    error_callback := some (fun _ => Except.ok ()) }

/-- A concrete case-insensitive sink holding `okCmd` under `"ping"`. -/
def ciSink : CommandSink Nat Nat :=
  { case_insensitive := true, mapping := [("ping", okCmd)] }

/-! Shared lemmas about the invocation pipeline. -/

/-- Exhaustive shape analysis of `Command.invoke`: whatever the handler
and error handler do, the invocation completes normally and its trace is
one of the three terminal shapes. -/
theorem invoke_eq_cases {V E : Type} (cmd : Command V E) (args : List V)
    (kwargs : List (String × V)) :
    cmd.invoke args kwargs =
      ([Event.command, Event.command_success, Event.command_complete], Except.ok ()) ∨
    (∃ exc, cmd.invoke args kwargs =
      ([Event.command, Event.command_error exc, Event.command_complete], Except.ok ())) ∨
    cmd.invoke args kwargs =
      ([Event.command, Event.command_complete], Except.ok ()) := by
  cases hcb : cmd.callback args kwargs with
  | ok u =>
      left
      cases u
      simp [Command.invoke, pyFinally, pyTryExceptElse, effSeq, emit, liftExc, hcb]
  | error e =>
      cases hec : cmd.error_callback with
      | none =>
          right; left
          exact ⟨e, by
            simp [Command.invoke, pyFinally, pyTryExceptElse, effSeq, emit, liftExc,
              hcb, hec]⟩
      | some ecb =>
          cases hecb : ecb e with
          | ok u =>
              right; right
              cases u
              simp [Command.invoke, pyFinally, pyTryExceptElse, effSeq, emit, liftExc,
                hcb, hec, hecb]
          | error e2 =>
              right; left
              exact ⟨e2, by
                simp [Command.invoke, pyFinally, pyTryExceptElse, effSeq, emit, liftExc,
                  hcb, hec, hecb]⟩

/-! Claims about the invocation pipeline (C1–C5). -/

/-- C1: for every invocation of `Command.invoke`, regardless of handler
behaviour, the trace starts with the `command` event, ends with the
`command_complete` event, `command_complete` occurs exactly once,
`command_success` and `command_error` never both occur, and between start
and completion there is exactly one of: nothing (silent recovery), one
`command_success`, or one `command_error`. -/
theorem invoke_lifecycle_order {V E : Type} (cmd : Command V E) (args : List V)
    (kwargs : List (String × V)) :
    (cmd.invoke args kwargs).1.head? = some Event.command ∧
    (cmd.invoke args kwargs).1.getLast? = some Event.command_complete ∧
    ((cmd.invoke args kwargs).1.filter (fun e => e.isComplete)).length = 1 ∧
    ¬((∃ e ∈ (cmd.invoke args kwargs).1, e.isSuccess = true) ∧
      (∃ e ∈ (cmd.invoke args kwargs).1, e.isError = true)) ∧
    (∃ mid, (cmd.invoke args kwargs).1 = Event.command :: (mid ++ [Event.command_complete]) ∧
      (mid = [] ∨ mid = [Event.command_success] ∨
        ∃ exc, mid = [Event.command_error exc])) := by
  rcases invoke_eq_cases cmd args kwargs with h | ⟨exc, h⟩ | h <;> rw [h]
  · exact ⟨rfl, rfl, by simp [Event.isComplete],
      by rintro ⟨⟨e1, he1, hs⟩, e2, he2, he⟩
         simp [Event.isSuccess, Event.isError] at he1 he2
         rcases he2 with h2 | h2 | h2 <;> subst h2 <;> simp [Event.isError] at he,
      [Event.command_success], rfl, Or.inr (Or.inl rfl)⟩
  · exact ⟨rfl, rfl, by simp [Event.isComplete],
      by rintro ⟨⟨e1, he1, hs⟩, e2, he2, he⟩
         simp [Event.isSuccess, Event.isError] at he1 he2
         rcases he1 with h1 | h1 | h1 <;> subst h1 <;> simp [Event.isSuccess] at hs,
      [Event.command_error exc], rfl, Or.inr (Or.inr ⟨exc, rfl⟩)⟩
  · exact ⟨rfl, rfl, by simp [Event.isComplete],
      by rintro ⟨⟨e1, he1, hs⟩, _⟩
         simp [Event.isSuccess, Event.isError] at he1
         rcases he1 with h1 | h1 <;> subst h1 <;> simp [Event.isSuccess] at hs,
      [], rfl, Or.inl rfl⟩

/-- C2: `Command.invoke` never lets a handler or error-handler failure
escape to its caller — it always completes normally (`Except.ok`),
whatever the handler and the optional error handler do. -/
theorem invoke_never_raises {V E : Type} (cmd : Command V E) (args : List V)
    (kwargs : List (String × V)) :
    (cmd.invoke args kwargs).2 = Except.ok () := by
  rcases invoke_eq_cases cmd args kwargs with h | ⟨exc, h⟩ | h <;> rw [h]

/-- C3: when the handler raises `e1`: with no error handler attached the
`command_error` event carries `e1`; with an attached error handler that
itself raises `delivered`, the `command_error` event carries `delivered`,
and an event carrying the original `e1` is only in the trace when
`delivered = e1`. -/
theorem invoke_error_delivery {V E : Type} (cmd : Command V E) (args : List V)
    (kwargs : List (String × V)) (e1 delivered : E)
    (hcb : cmd.callback args kwargs = Except.error e1)
    (hd : (cmd.error_callback = none ∧ delivered = e1) ∨
          (∃ ecb, cmd.error_callback = some ecb ∧
            ecb e1 = Except.error delivered)) :
    (cmd.invoke args kwargs).1 =
      [Event.command, Event.command_error delivered, Event.command_complete] ∧
    (Event.command_error e1 ∈ (cmd.invoke args kwargs).1 → delivered = e1) := by
  have htrace : (cmd.invoke args kwargs).1 =
      [Event.command, Event.command_error delivered, Event.command_complete] := by
    rcases hd with ⟨hec, hde⟩ | ⟨ecb, hec, hecb⟩
    · subst hde
      simp [Command.invoke, pyFinally, pyTryExceptElse, effSeq, emit, liftExc, hcb, hec]
    · simp [Command.invoke, pyFinally, pyTryExceptElse, effSeq, emit, liftExc,
        hcb, hec, hecb]
  refine ⟨htrace, ?_⟩
  rw [htrace]
  intro hmem
  simp only [List.mem_cons, List.not_mem_nil, or_false] at hmem
  rcases hmem with h | h | h
  · exact absurd h (by simp)
  · exact (Event.command_error.injEq _ _).mp h.symm
  · exact absurd h (by simp)

/-- C4: when the handler raises and the attached error handler completes
without raising, the events are exactly `[command, command_complete]`
(no success, no error event) and the invocation completes normally. -/
theorem invoke_recovered_trace {V E : Type} (cmd : Command V E) (args : List V)
    (kwargs : List (String × V)) (e1 : E) (ecb : E → Except E Unit)
    (hcb : cmd.callback args kwargs = Except.error e1)
    (hec : cmd.error_callback = some ecb)
    (hok : ecb e1 = Except.ok ()) :
    cmd.invoke args kwargs = ([Event.command, Event.command_complete], Except.ok ()) := by
  simp [Command.invoke, pyFinally, pyTryExceptElse, effSeq, emit, liftExc,
    hcb, hec, hok]

/-- C5: when the handler completes without raising, the events are exactly
`[command, command_success, command_complete]` in that order and no
`command_error` event is dispatched. -/
theorem invoke_success_trace {V E : Type} (cmd : Command V E) (args : List V)
    (kwargs : List (String × V))
    (hcb : cmd.callback args kwargs = Except.ok ()) :
    cmd.invoke args kwargs =
      ([Event.command, Event.command_success, Event.command_complete], Except.ok ()) ∧
    ∀ e ∈ (cmd.invoke args kwargs).1, e.isError = false := by
  have h : cmd.invoke args kwargs =
      ([Event.command, Event.command_success, Event.command_complete], Except.ok ()) := by
    simp [Command.invoke, pyFinally, pyTryExceptElse, effSeq, emit, liftExc, hcb]
  refine ⟨h, ?_⟩
  rw [h]
  intro e he
  simp only [List.mem_cons, List.not_mem_nil, or_false] at he
  rcases he with h1 | h1 | h1 <;> subst h1 <;> rfl

/-- Witness for C3 at a concrete command: the handler raises `1`, the
error handler raises `2`, and the dispatched error event carries `2`. -/
theorem invoke_error_delivery_witness :
    (failBothCmd.invoke [] []).1 =
      [Event.command, Event.command_error 2, Event.command_complete] ∧
    (Event.command_error 1 ∈ (failBothCmd.invoke [] []).1 → (2 : Nat) = 1) :=
  invoke_error_delivery failBothCmd [] [] 1 2 rfl
    (Or.inr ⟨fun _ => Except.error 2, rfl, rfl⟩)

/-- Witness for C4 at a concrete command: handler raises, error handler
recovers, only `command` and `command_complete` are dispatched. -/
theorem invoke_recovered_trace_witness :
    recoverCmd.invoke [] [] =
      ([Event.command, Event.command_complete], Except.ok ()) :=
  invoke_recovered_trace recoverCmd [] [] 1 (fun _ => Except.ok ()) rfl rfl rfl

/-- Witness for C5 at a concrete command with a succeeding handler. -/
theorem invoke_success_trace_witness :
    okCmd.invoke [] [] =
      ([Event.command, Event.command_success, Event.command_complete], Except.ok ()) ∧
    ∀ e ∈ (okCmd.invoke [] []).1, e.isError = false :=
  invoke_success_trace okCmd [] [] rfl

/-! Claims about the map, the sink and the context (C6–C10). -/

/-- C7 (the code, evaluated at the claim's scenario): every write through
`CaseInsensitiveDict.__setitem__` raises `NameError: name 'v' is not
defined` — the body passes the undefined name `v` instead of its
parameter `value` — so no write ever stores anything and read-after-write
can never return the written value. -/
theorem setitem_always_raises {α : Type} (d : List (String × α)) (key : String)
    (value : α) :
    CaseInsensitiveDict.setitem d key value =
      Except.error (PyError.nameError ("v")) :=
  rfl

/-- C8: on a case-insensitive sink, `get_command` returns identical
results for any two keys equal under case-folding (the same stored
command when present, the same default when absent). -/
theorem get_command_casefold_eq {V E : Type} (s : CommandSink V E)
    (k1 k2 : String) (default : Option (Command V E))
    (hci : s.case_insensitive = true)
    (hk : casefold k1 = casefold k2) :
    s.get_command k1 default = s.get_command k2 default := by
  simp [CommandSink.get_command, hci, CaseInsensitiveDict.get, hk]

/-- Witness for C8 at a concrete sink and keys differing only in case. -/
theorem get_command_casefold_eq_witness :
    ciSink.get_command ("PING") none = ciSink.get_command ("pInG") none :=
  get_command_casefold_eq ciSink ("PING") ("pInG") none rfl (by decide)

/-- C9: after a completed `Context.invoke cmd args kwargs`, `reinvoke`
succeeds and is exactly a fresh `invoke cmd args kwargs` on the stored
values: the same command and arguments are re-used, the full pipeline
re-runs and the lifecycle events fire again in full (identical resulting
context, trace and result). -/
theorem reinvoke_equiv_invoke {V E : Type} (ctx : Context V E)
    (cmd : Command V E) (args : List V) (kwargs : List (String × V)) :
    ((ctx.invoke cmd args kwargs).1).reinvoke =
      Except.ok (((ctx.invoke cmd args kwargs).1).invoke cmd args kwargs) ∧
    ((ctx.invoke cmd args kwargs).1).invoke cmd args kwargs =
      ctx.invoke cmd args kwargs := by
  exact ⟨rfl, rfl⟩

/-- C10: `reinvoke` on a freshly constructed context (command, args and
kwargs all absent) raises a `TypeError` at the delegating call itself —
before any lifecycle event is dispatched and before the context is
mutated (the failure produces no trace and no context) — rather than
being a silent no-op. -/
theorem reinvoke_fresh_raises (V E : Type) :
    (Context.init V E).reinvoke = Except.error PyError.typeError :=
  rfl

/-! Registration (C6): dictionary and walk lemmas. -/

/-- Lookup distributes over append: the left part wins when it has the
key. -/
theorem dictLookup_append {α : Type} (m1 m2 : List (String × α)) (k : String) :
    dictLookup (m1 ++ m2) k =
      match dictLookup m1 k with
      | some v => some v
      | none => dictLookup m2 k := by
  induction m1 with
  | nil => rfl
  | cons p rest ih =>
      obtain ⟨k1, v1⟩ := p
      by_cases h : k1 = k <;> simp [dictLookup, h, ih]

/-- Writing a key absent from a dictionary appends the new entry. -/
theorem dictInsert_of_lookup_none {α : Type} (m : List (String × α)) (k : String)
    (v : α) (h : dictLookup m k = none) :
    dictInsert m k v = m ++ [(k, v)] := by
  induction m with
  | nil => rfl
  | cons p rest ih =>
      obtain ⟨k1, v1⟩ := p
      by_cases h1 : k1 = k
      · simp [dictLookup, h1] at h
      · simp only [dictLookup, if_neg h1] at h
        simp [dictInsert, h1, ih h]

/-- Folding fresh, pairwise-distinct writes of the same value appends the
corresponding entries in order. -/
theorem foldl_dictInsert_fresh {α : Type} (c : α) (ks : List String)
    (m : List (String × α)) (hnd : ks.Nodup)
    (hfresh : ∀ k ∈ ks, dictLookup m k = none) :
    ks.foldl (fun acc k => dictInsert acc k c) m = m ++ ks.map (fun k => (k, c)) := by
  induction ks generalizing m with
  | nil => simp
  | cons k ks ih =>
      simp only [List.foldl_cons, List.map_cons]
      rw [dictInsert_of_lookup_none m k c (hfresh k (List.mem_cons_self k ks))]
      rw [ih (m ++ [(k, c)]) (List.Nodup.of_cons hnd) ?_]
      · simp
      · intro k2 hk2
        rw [dictLookup_append, hfresh k2 (List.mem_cons_of_mem k hk2)]
        have hne : ¬(k = k2) := fun he => (List.nodup_cons.mp hnd).1 (he ▸ hk2)
        simp [dictLookup, hne]

/-- Looking up any member key of a constant-valued entry list finds that
value. -/
theorem dictLookup_map_const {α : Type} (c : α) (ks : List String) (k : String)
    (hk : k ∈ ks) :
    dictLookup (ks.map (fun k2 => (k2, c))) k = some c := by
  induction ks with
  | nil => cases hk
  | cons k1 ks ih =>
      by_cases h : k1 = k
      · simp [dictLookup, h]
      · rcases List.mem_cons.mp hk with he | hm
        · exact absurd he.symm h
        · simp [dictLookup, h, ih hm]

/-- The dedup walk yields nothing when every identity was already seen. -/
theorem walkAux_all_seen {V E : Type} (cs : List (Command V E)) (seen : List Nat)
    (h : ∀ c ∈ cs, c.ident ∈ seen) : walkAux cs seen = [] := by
  induction cs with
  | nil => rfl
  | cons c cs ih =>
      rw [walkAux, if_pos (h c (List.mem_cons_self c cs))]
      exact ih fun c2 hc2 => h c2 (List.mem_cons_of_mem c hc2)

/-- Walking a nonempty block of one repeated, not-yet-seen command yields
exactly that command for its identity. -/
theorem walkAux_const_filter {V E : Type} (cmd : Command V E) (ks : List String)
    (seen : List Nat) (hne : ks ≠ []) (hseen : cmd.ident ∉ seen) :
    (walkAux (ks.map fun _ => cmd) seen).filter (fun c => c.ident == cmd.ident)
      = [cmd] := by
  cases ks with
  | nil => exact absurd rfl hne
  | cons k ks =>
      simp only [List.map_cons]
      rw [walkAux, if_neg hseen]
      rw [walkAux_all_seen _ _ ?_]
      · simp
      · intro c2 hc2
        obtain ⟨k2, hk2, rfl⟩ := List.mem_map.mp hc2
        exact List.mem_cons_self cmd.ident seen

/-- Walking already-held distinct-identity commands followed by a block
of a fresh command yields exactly one command with the fresh identity:
the fresh command itself. -/
theorem walkAux_prefix_filter {V E : Type} (cmd : Command V E) (ks : List String)
    (old : List (Command V E)) (seen : List Nat)
    (hne : ks ≠ []) (hold : ∀ c ∈ old, c.ident ≠ cmd.ident)
    (hseen : cmd.ident ∉ seen) :
    (walkAux (old ++ ks.map fun _ => cmd) seen).filter
        (fun c => c.ident == cmd.ident) = [cmd] := by
  induction old generalizing seen with
  | nil => simpa using walkAux_const_filter cmd ks seen hne hseen
  | cons c old ih =>
      have hcne : c.ident ≠ cmd.ident := hold c (List.mem_cons_self c old)
      have hold2 : ∀ c2 ∈ old, c2.ident ≠ cmd.ident :=
        fun c2 hc2 => hold c2 (List.mem_cons_of_mem c hc2)
      by_cases h : c.ident ∈ seen
      · rw [List.cons_append, walkAux, if_pos h]
        exact ih seen hold2 hseen
      · rw [List.cons_append, walkAux, if_neg h, List.filter_cons]
        have hbeq : (c.ident == cmd.ident) = false := beq_false_of_ne hcne
        rw [hbeq]
        simp only [Bool.false_eq_true, if_false]
        refine ih (c.ident :: seen) hold2 ?_
        intro hmem
        rcases List.mem_cons.mp hmem with he | hm
        · exact hcne he.symm
        · exact hseen hm

/-- C6: registering a command whose folded keys (name and aliases) are
pairwise distinct and absent from the sink, and whose identity is fresh,
adds exactly `n+1` keys to the mapping (`n` the number of aliases), makes
every one of those keys resolve to the very command registered, and makes
`walk_commands` yield that command's identity exactly once — namely the
command itself. -/
theorem register_adds_keys {V E : Type} (s : CommandSink V E) (cmd : Command V E)
    (hnodup : ((cmd.name :: cmd.aliases).map s.foldKey).Nodup)
    (hfresh : ∀ k ∈ cmd.name :: cmd.aliases,
      dictLookup s.mapping (s.foldKey k) = none)
    (hident : ∀ c ∈ s.mapping.map Prod.snd, c.ident ≠ cmd.ident) :
    (s.register cmd).mapping.length = s.mapping.length + (cmd.aliases.length + 1) ∧
    (∀ k ∈ cmd.name :: cmd.aliases,
        dictLookup (s.register cmd).mapping (s.foldKey k) = some cmd) ∧
    (s.register cmd).walk_commands.filter (fun c => c.ident == cmd.ident)
      = [cmd] := by
  have hmap : (s.register cmd).mapping =
      s.mapping ++ ((cmd.name :: cmd.aliases).map s.foldKey).map (fun k => (k, cmd)) := by
    have h1 := foldl_dictInsert_fresh cmd ((cmd.name :: cmd.aliases).map s.foldKey)
      s.mapping hnodup
      (by
        intro k hk
        obtain ⟨k0, hk0, rfl⟩ := List.mem_map.mp hk
        exact hfresh k0 hk0)
    rw [List.foldl_map] at h1
    exact h1
  refine ⟨?_, ?_, ?_⟩
  · rw [hmap]
    simp [Nat.add_comm]
  · intro k hk
    rw [hmap, dictLookup_append, hfresh k hk]
    exact dictLookup_map_const cmd _ _ (List.mem_map_of_mem s.foldKey hk)
  · rw [CommandSink.walk_commands, hmap, List.map_append, List.map_map]
    exact walkAux_prefix_filter cmd ((cmd.name :: cmd.aliases).map s.foldKey)
      (s.mapping.map Prod.snd) [] (by simp) hident (List.not_mem_nil cmd.ident)

/-- Witness for C6: registering `okCmd` (name `"ping"`, one alias `"p"`)
into a fresh case-sensitive sink. -/
theorem register_adds_keys_witness :
    ((CommandSink.init Nat Nat false).register okCmd).mapping.length =
      (CommandSink.init Nat Nat false).mapping.length + (okCmd.aliases.length + 1) ∧
    (∀ k ∈ okCmd.name :: okCmd.aliases,
        dictLookup ((CommandSink.init Nat Nat false).register okCmd).mapping
          ((CommandSink.init Nat Nat false).foldKey k) = some okCmd) ∧
    ((CommandSink.init Nat Nat false).register okCmd).walk_commands.filter
        (fun c => c.ident == okCmd.ident) = [okCmd] :=
  register_adds_keys (CommandSink.init Nat Nat false) okCmd (by decide)
    (fun _ _ => rfl) (fun c hc => absurd hc (List.not_mem_nil c))

end Commands
